import Mathlib

/-!
The callback emojifyMyText exported to JavaScript.

A shallow embedding of the callback of `exporttojs.go` and of the part of its host that the
callback touches: the `syscall/js` values it handles, the document it looks the text area up
in, and the emoji substitution call, which is a parameter.

The callback is embedded statement by statement as a function from the host state before the
call to the outcome of the call (a returned result, or the panic that ended it), the host
state after it, and the list of strings handed to `emoji.Sprint`.
-/

set_option autoImplicit false
set_option linter.unusedVariables false

namespace ExportToJS

/-! ## JavaScript values as `syscall/js` sees them -/

/-- The eight kinds of JavaScript value that `syscall/js` tells apart (`js.Type`). -/
inductive JSType
  | undefined | null | boolean | number | string | symbol | object | function
  deriving DecidableEq, Repr

/-- The test `syscall/js` makes before a property access: objects and functions pass. -/
def JSType.isObject : JSType → Bool
  | .object => true
  | .function => true
  | _ => false

/-- A JavaScript value (`js.Value`). A number is carried by the text JavaScript prints for it,
which is all the callback can observe of it; objects, functions and symbols are references. -/
inductive Value
  | undefined
  | null
  | boolean (b : Bool)
  | number (text : String)
  | string (s : String)
  | symbol (ref : Nat)
  | object (ref : Nat)
  | function (ref : Nat)
  deriving DecidableEq, Repr

/-- The kind of a value (`Value.Type` of `syscall/js`). -/
def Value.typeOf : Value → JSType
  | .undefined => .undefined
  | .null => .null
  | .boolean _ => .boolean
  | .number _ => .number
  | .string _ => .string
  | .symbol _ => .symbol
  | .object _ => .object
  | .function _ => .function

/-- The guard `Value.IsUndefined`: true for the value undefined and for nothing else. -/
def Value.IsUndefined (v : Value) : Bool :=
  v = .undefined

/-- The panic value of `syscall/js` for a method used on a value of the wrong kind. -/
structure ValueError where
  method : String
  type : JSType
  deriving DecidableEq, Repr

/-! ## The host -/

/-- The own properties of an object, by name; the first binding of a name is the live one. -/
abbrev Props := List (String × Value)

/-- Reading a property: the bound value, or undefined when the name is not bound. -/
def getProp : Props → String → Value
  | [], _ => .undefined
  | (k, v) :: rest, p => if k = p then v else getProp rest p

/-- Writing a property: the live binding is replaced where there is one, added otherwise. -/
def setProp : Props → String → Value → Props
  | [], p, x => [(p, x)]
  | (k, v) :: rest, p, x => if k = p then (k, x) :: rest else (k, v) :: setProp rest p x

/-- An element of the document: its id and its properties, `value` among them. Properties are
plain data: a read gives back what was last written. -/
structure Element where
  id : String
  props : Props
  deriving DecidableEq, Repr

/-- What `document.getElementById` answers when no element carries the id: null in a document
that follows the DOM standard, undefined in a host written to the interface that the
callback's first guard tests for. -/
inductive NoElement
  | null
  | undefined
  deriving DecidableEq, Repr

/-- The answer as a value. -/
def NoElement.toValue : NoElement → Value
  | .null => .null
  | .undefined => .undefined

/-- The host state: the globals besides `document`, the elements of the document in tree order
(the object reference `i` is the element at position `i`), and the answer of a failed lookup. -/
structure Host where
  globals : Props
  elements : List Element
  noElement : NoElement
  deriving DecidableEq, Repr

/-- Position of the first element, in tree order, that carries the id. -/
def findElement : List Element → String → Option Nat
  | [], _ => none
  | e :: es, id => if e.id = id then some 0 else (findElement es id).map (· + 1)

/-- The call `js.Global().Get("document").Call("getElementById", id)`: a reference to the first
element with the id, or the host's answer for a failed lookup. -/
def getElementById (h : Host) (id : String) : Value :=
  match findElement h.elements id with
  | some i => .object i
  | none => h.noElement.toValue

/-- The heap slot a value refers to, when it is an object or a function. -/
def Value.ref? : Value → Option Nat
  | .object r => some r
  | .function r => some r
  | _ => none

/-- The method `Value.Get`: panics unless the receiver is an object or a function, and reads
the property otherwise (undefined when it is not there). -/
def Value.Get (h : Host) (v : Value) (p : String) : Except ValueError Value :=
  if v.typeOf.isObject then
    match v.ref?.bind (fun r => h.elements[r]?) with
    | some e => .ok (getProp e.props p)
    | none => .ok .undefined
  else .error ⟨"Value.Get", v.typeOf⟩

/-- The method `Value.Set`: panics unless the receiver is an object or a function, and writes
the property otherwise. -/
def Value.Set (h : Host) (v : Value) (p : String) (x : Value) : Except ValueError Host :=
  if v.typeOf.isObject then
    match v.ref? with
    | some r =>
      match h.elements[r]? with
      | some e =>
        .ok { h with elements := h.elements.set r { e with props := setProp e.props p x } }
      | none => .ok h
    | none => .ok h
  else .error ⟨"Value.Set", v.typeOf⟩

/-- The conversion `Value.String`: the text of a string, and for every other kind a bracketed
rendering of the kind; it never panics. -/
def Value.String : Value → String
  | .string s => s
  | .undefined => "<undefined>"
  | .null => "<null>"
  | .boolean b => "<boolean: " ++ (if b then "true" else "false") ++ ">"
  | .number text => "<number: " ++ text ++ ">"
  | .symbol _ => "<symbol>"
  | .object _ => "<object>"
  | .function _ => "<function>"

/-! ## The callback -/

/-- How a call ended: with a returned Go value (`none` is nil) or with a panic. -/
inductive Outcome
  | returned (result : Option Value)
  | panicked (e : ValueError)
  deriving DecidableEq, Repr

/-- Everything one call of the callback does: how it ended, the host state it leaves, and the
strings it handed to `emoji.Sprint`, in order. -/
structure Run where
  outcome : Outcome
  host : Host
  sprintArgs : List String
  deriving DecidableEq, Repr

/-- The function given to `js.FuncOf` and stored in the global `emojifyMyText`, with
`emoji.Sprint` as the parameter `Sprint`. -/
def emojifyMyText (Sprint : String → String) (this : Value) (args : List Value)
    (h : Host) : Run :=
  let textarea := getElementById h "my_text_area"
  if textarea.IsUndefined then
    ⟨.returned none, h, []⟩
  else
    match textarea.Get h "value" with
    | .error e => ⟨.panicked e, h, []⟩
    | .ok value =>
      if value.IsUndefined then
        ⟨.returned none, h, []⟩
      else
        let valueStr := value.String
        let emojiStr := Sprint valueStr
        match textarea.Set h "value" (.string emojiStr) with
        | .error e => ⟨.panicked e, h, [valueStr]⟩
        | .ok h' => ⟨.returned none, h', [valueStr]⟩

/-! ## Observations used to state the properties -/

/-- The `value` property of the element that `getElementById` finds for the id, when there is
such an element. -/
def elementValue (h : Host) (id : String) : Option Value :=
  match findElement h.elements id with
  | some i => (h.elements[i]?).map (fun e => getProp e.props "value")
  | none => none

/-- An example substitution routine: every `:)` becomes the smiling face U+1F60A. -/
def smileyChars : List Char → List Char
  | [] => []
  | [c] => [c]
  | c :: d :: rest =>
    if c = ':' ∧ d = ')' then Char.ofNat 0x1F60A :: smileyChars rest
    else c :: smileyChars (d :: rest)

/-- The example routine on strings. -/
def smiley (s : String) : String :=
  String.mk (smileyChars s.data)

/-- An example routine that is not idempotent: it appends a `:)` of its own. -/
def addSmiley (s : String) : String :=
  s ++ " :)"

/-- A document with a text area holding the sample sentence, next to another element. -/
def happyHost : Host :=
  { globals := [("title", .string "demo")]
    elements := [⟨"header", [("value", .number "7")]⟩,
                 ⟨"my_text_area", [("rows", .number "4"), ("value", .string "I am happy :) today")]⟩]
    noElement := .null }

/-- A document that follows the DOM standard and has no element with the id. -/
def emptyDomHost : Host :=
  { globals := [], elements := [], noElement := .null }

/-- A document whose element with the id is not a text control: it has no `value` property. -/
def divHost : Host :=
  { globals := [("title", .string "demo")]
    elements := [⟨"my_text_area", [("className", .string "box")]⟩]
    noElement := .null }

/-- A host whose lookup answers undefined when no element carries the id. -/
def emptyUndefinedHost : Host :=
  { globals := [("title", .string "demo")], elements := [⟨"header", []⟩], noElement := .undefined }

/-- A document that follows the DOM standard, with elements but none carrying the id. -/
def otherIdsDomHost : Host :=
  { globals := [("title", .string "demo")]
    elements := [⟨"header", [("value", .string "x")]⟩, ⟨"footer", []⟩]
    noElement := .null }

/-- A document whose element with the id holds null as its `value`. -/
def nullValueHost : Host :=
  { globals := [], elements := [⟨"my_text_area", [("value", .null)]⟩], noElement := .null }

/-- A document whose element with the id holds a number as its `value`. -/
def numberValueHost : Host :=
  { globals := [], elements := [⟨"my_text_area", [("value", .number "42")]⟩], noElement := .null }

/-- A document whose text area holds a text without any token. -/
def helloHost : Host :=
  { globals := []
    elements := [⟨"my_text_area", [("value", .string "hello world")]⟩]
    noElement := .null }

/-- A document whose text area is empty. -/
def emptyTextHost : Host :=
  { globals := [], elements := [⟨"my_text_area", [("value", .string "")]⟩], noElement := .null }

/-- An example routine that is idempotent: the text `:)` alone becomes the smiling face. -/
def wholeSmiley (s : String) : String :=
  if s = ":)" then "😊" else s

/-! ## Lemmas on properties and on the element lookup -/

theorem getProp_setProp_same (ps : Props) (p : String) (x : Value) :
    getProp (setProp ps p x) p = x := by
  induction ps with
  | nil => simp [setProp, getProp]
  | cons a rest ih =>
    obtain ⟨k, v⟩ := a
    by_cases hk : k = p
    · simp [setProp, getProp, hk]
    · simp [setProp, getProp, hk, ih]

theorem getProp_setProp_other (ps : Props) (p q : String) (x : Value) (hq : q ≠ p) :
    getProp (setProp ps p x) q = getProp ps q := by
  induction ps with
  | nil => simp [setProp, getProp, Ne.symm hq]
  | cons a rest ih =>
    obtain ⟨k, v⟩ := a
    by_cases hk : k = p
    · subst hk
      simp [setProp, getProp, Ne.symm hq]
    · by_cases hkq : k = q
      · subst hkq
        simp [setProp, getProp, hk]
      · simp [setProp, getProp, hk, hkq, ih]

theorem setProp_setProp (ps : Props) (p : String) (x y : Value) :
    setProp (setProp ps p x) p y = setProp ps p y := by
  induction ps with
  | nil => simp [setProp]
  | cons a rest ih =>
    obtain ⟨k, v⟩ := a
    by_cases hk : k = p
    · simp [setProp, hk]
    · simp [setProp, hk, ih]

theorem setProp_getProp_self (ps : Props) (p : String) (hp : getProp ps p ≠ .undefined) :
    setProp ps p (getProp ps p) = ps := by
  induction ps with
  | nil => simp [getProp] at hp
  | cons a rest ih =>
    obtain ⟨k, v⟩ := a
    by_cases hk : k = p
    · simp [setProp, getProp, hk]
    · simp only [getProp, hk, if_false] at hp
      simp [setProp, getProp, hk, ih hp]

theorem findElement_some {es : List Element} {id : String} {i : Nat}
    (hf : findElement es id = some i) : ∃ e, es[i]? = some e ∧ e.id = id := by
  induction es generalizing i with
  | nil => simp [findElement] at hf
  | cons a rest ih =>
    by_cases ha : a.id = id
    · simp [findElement, ha] at hf
      subst hf
      exact ⟨a, by simp, ha⟩
    · cases hr : findElement rest id with
      | none => simp [findElement, ha, hr] at hf
      | some j =>
        simp [findElement, ha, hr] at hf
        subst hf
        obtain ⟨e, he, hid⟩ := ih hr
        exact ⟨e, by simpa using he, hid⟩

theorem findElement_set {es : List Element} {i : Nat} {e : Element} (e' : Element)
    (id : String) (he : es[i]? = some e) (hid : e'.id = e.id) :
    findElement (es.set i e') id = findElement es id := by
  induction es generalizing i with
  | nil => simp at he
  | cons a rest ih =>
    cases i with
    | zero =>
      simp at he
      subst he
      simp [findElement, hid]
    | succ j =>
      simp at he
      simp [findElement, ih he]

/-! ## The callback, case by case -/

/-- The call when the lookup finds an element: nothing happens when its `value` is undefined,
and otherwise the element's `value` is overwritten with the substituted rendering of it. -/
theorem emojifyMyText_found (Sprint : String → String) (this : Value) (args : List Value)
    {h : Host} {i : Nat} {e : Element}
    (hf : findElement h.elements "my_text_area" = some i) (he : h.elements[i]? = some e) :
    emojifyMyText Sprint this args h =
      if getProp e.props "value" = .undefined then ⟨.returned none, h, []⟩
      else
        ⟨.returned none,
          { h with elements := h.elements.set i (Element.mk e.id
              (setProp e.props "value" (.string (Sprint (getProp e.props "value").String)))) },
          [(getProp e.props "value").String]⟩ := by
  simp [emojifyMyText, getElementById, hf, Value.IsUndefined, Value.Get, Value.Set,
    Value.typeOf, JSType.isObject, Value.ref?, he]

/-- The call when no element carries the id: a silent return where the host answers undefined,
a panic in `Value.Get` where it answers null; the host state is untouched either way. -/
theorem emojifyMyText_missing (Sprint : String → String) (this : Value) (args : List Value)
    {h : Host} (hf : findElement h.elements "my_text_area" = none) :
    emojifyMyText Sprint this args h =
      match h.noElement with
      | .undefined => ⟨.returned none, h, []⟩
      | .null => ⟨.panicked ⟨"Value.Get", .null⟩, h, []⟩ := by
  cases hn : h.noElement <;>
    simp [emojifyMyText, getElementById, hf, hn, NoElement.toValue, Value.IsUndefined,
      Value.Get, Value.typeOf, JSType.isObject]

theorem emojifyMyText_missing_host (Sprint : String → String) (this : Value)
    (args : List Value) {h : Host} (hf : findElement h.elements "my_text_area" = none) :
    (emojifyMyText Sprint this args h).host = h := by
  rw [emojifyMyText_missing Sprint this args hf]
  cases h.noElement <;> rfl

theorem elementValue_eq {h : Host} {i : Nat} {e : Element}
    (hf : findElement h.elements "my_text_area" = some i) (he : h.elements[i]? = some e) :
    elementValue h "my_text_area" = some (getProp e.props "value") := by
  simp [elementValue, hf, he]

theorem elementValue_some {h : Host} {v : Value}
    (hv : elementValue h "my_text_area" = some v) :
    ∃ i e, findElement h.elements "my_text_area" = some i ∧ h.elements[i]? = some e ∧
      getProp e.props "value" = v := by
  cases hf : findElement h.elements "my_text_area" with
  | none => simp [elementValue, hf] at hv
  | some i =>
    obtain ⟨e, he, _⟩ := findElement_some hf
    refine ⟨i, e, rfl, he, ?_⟩
    simpa [elementValue, hf, he] using hv

theorem set_same_element {es : List Element} {i : Nat} {e : Element}
    (he : es[i]? = some e) : es.set i e = es := by
  induction es generalizing i with
  | nil => simp
  | cons a rest ih =>
    cases i with
    | zero =>
      simp at he
      simp [he]
    | succ j =>
      simp at he
      simp [ih he]

theorem findElement_none_iff (es : List Element) (id : String) :
    findElement es id = none ↔ ∀ e ∈ es, e.id ≠ id := by
  induction es with
  | nil => simp [findElement]
  | cons a rest ih =>
    by_cases ha : a.id = id
    · simp [findElement, ha]
    · simp [findElement, ha, ih]

theorem elementValue_set {h : Host} {i : Nat} {e : Element} (ps : Props)
    (hf : findElement h.elements "my_text_area" = some i) (he : h.elements[i]? = some e) :
    elementValue { h with elements := h.elements.set i (Element.mk e.id ps) } "my_text_area" =
      some (getProp ps "value") := by
  have hlt : i < h.elements.length := by
    rcases Nat.lt_or_ge i h.elements.length with hlt | hge
    · exact hlt
    · rw [List.getElem?_eq_none hge] at he
      cases he
  have hf2 : findElement (h.elements.set i (Element.mk e.id ps)) "my_text_area" = some i := by
    rw [findElement_set (Element.mk e.id ps) "my_text_area" he rfl]
    exact hf
  simp [elementValue, hf2, hlt]

/-! ## The claims -/

/-- C1: when the element with id my_text_area exists and its value is the text v, one call of
the callback returns nil, hands exactly v to the substitution routine, and leaves the value of
that element equal to the routine's result on v. -/
theorem emojifyMyText_writes_substitution (Sprint : String → String) (this : Value)
    (args : List Value) (h : Host) (v : String)
    (hv : elementValue h "my_text_area" = some (.string v)) :
    (emojifyMyText Sprint this args h).outcome = .returned none ∧
      elementValue (emojifyMyText Sprint this args h).host "my_text_area"
        = some (.string (Sprint v)) ∧
      (emojifyMyText Sprint this args h).sprintArgs = [v] := by
  obtain ⟨i, e, hf, he, hval⟩ := elementValue_some hv
  rw [emojifyMyText_found Sprint this args hf he]
  simp only [hval, Value.String, reduceCtorEq, if_false, true_and]
  rw [elementValue_set _ hf he, getProp_setProp_same]
  simp

/-- C1 at the sample sentence: with a routine that turns the token into the smiling face, the
text area ends up holding the sentence with the smiling face in it. -/
theorem emojifyMyText_writes_substitution_witness :
    elementValue happyHost "my_text_area" = some (.string "I am happy :) today") ∧
      elementValue (emojifyMyText smiley .undefined [] happyHost).host "my_text_area"
        = some (.string "I am happy 😊 today") := by
  have hs : smiley "I am happy :) today" = "I am happy 😊 today" := by decide
  have hw := (emojifyMyText_writes_substitution smiley .undefined [] happyHost
    "I am happy :) today" (by decide)).2.1
  rw [hs] at hw
  exact ⟨by decide, hw⟩

/-- C2: in a document that follows the DOM standard (a failed lookup answers null) and has no
element with id my_text_area, the call does not return: it panics in Value.Get on null. The
document is left as it was. -/
theorem emojifyMyText_missing_element_dom_panics (Sprint : String → String) (this : Value)
    (args : List Value) (h : Host) (hno : ∀ e ∈ h.elements, e.id ≠ "my_text_area")
    (hn : h.noElement = .null) :
    emojifyMyText Sprint this args h = ⟨.panicked ⟨"Value.Get", .null⟩, h, []⟩ := by
  rw [emojifyMyText_missing Sprint this args ((findElement_none_iff _ _).2 hno), hn]

/-- C2 at the empty document. -/
theorem emojifyMyText_missing_element_dom_panics_witness :
    (∀ e ∈ emptyDomHost.elements, e.id ≠ "my_text_area") ∧ emptyDomHost.noElement = .null ∧
      emojifyMyText smiley .undefined [] emptyDomHost
        = ⟨.panicked ⟨"Value.Get", .null⟩, emptyDomHost, []⟩ :=
  ⟨by decide, rfl,
    emojifyMyText_missing_element_dom_panics smiley .undefined [] emptyDomHost (by decide) rfl⟩

/-- C3: when the element with id my_text_area exists and its value is undefined, the call
returns nil, leaves the whole host state as it was, never calls the substitution routine, and
the value of the element is still undefined. -/
theorem emojifyMyText_undefined_value_noop (Sprint : String → String) (this : Value)
    (args : List Value) (h : Host)
    (hv : elementValue h "my_text_area" = some .undefined) :
    emojifyMyText Sprint this args h = ⟨.returned none, h, []⟩ ∧
      elementValue (emojifyMyText Sprint this args h).host "my_text_area"
        = some .undefined := by
  obtain ⟨i, e, hf, he, hval⟩ := elementValue_some hv
  have hrun : emojifyMyText Sprint this args h = ⟨.returned none, h, []⟩ := by
    rw [emojifyMyText_found Sprint this args hf he]
    simp [hval]
  rw [hrun]
  exact ⟨rfl, hv⟩

/-- C3 at a document whose element with the id has no value property. -/
theorem emojifyMyText_undefined_value_noop_witness :
    elementValue divHost "my_text_area" = some .undefined ∧
      emojifyMyText smiley .undefined [] divHost = ⟨.returned none, divHost, []⟩ ∧
      elementValue (emojifyMyText smiley .undefined [] divHost).host "my_text_area"
        = some .undefined :=
  ⟨by decide, emojifyMyText_undefined_value_noop smiley .undefined [] divHost (by decide)⟩

/-- C4: whatever the host state and the routine, a call leaves the globals and the number of
elements as they were, and every element keeps its id and every property other than value;
an element that is not the one the lookup finds for my_text_area is left exactly as it was. -/
theorem emojifyMyText_frame (Sprint : String → String) (this : Value) (args : List Value)
    (h : Host) :
    (emojifyMyText Sprint this args h).host.globals = h.globals ∧
      (emojifyMyText Sprint this args h).host.noElement = h.noElement ∧
      (emojifyMyText Sprint this args h).host.elements.length = h.elements.length ∧
      ∀ (j : Nat) (e : Element), h.elements[j]? = some e →
        ∃ e2, (emojifyMyText Sprint this args h).host.elements[j]? = some e2 ∧
          e2.id = e.id ∧
          (∀ q, q ≠ "value" → getProp e2.props q = getProp e.props q) ∧
          (findElement h.elements "my_text_area" ≠ some j → e2 = e) := by
  cases hf : findElement h.elements "my_text_area" with
  | none =>
    have hh : (emojifyMyText Sprint this args h).host = h := by
      rw [emojifyMyText_missing Sprint this args hf]
      cases h.noElement <;> rfl
    rw [hh]
    exact ⟨rfl, rfl, rfl, fun j e he => ⟨e, he, rfl, fun _ _ => rfl, fun _ => rfl⟩⟩
  | some i =>
    obtain ⟨e0, he0, _⟩ := findElement_some hf
    rw [emojifyMyText_found Sprint this args hf he0]
    by_cases hu : getProp e0.props "value" = .undefined
    · rw [if_pos hu]
      exact ⟨rfl, rfl, rfl, fun j e he => ⟨e, he, rfl, fun _ _ => rfl, fun _ => rfl⟩⟩
    · rw [if_neg hu]
      refine ⟨rfl, rfl, by simp, fun j e he => ?_⟩
      by_cases hji : i = j
      · subst hji
        have hlt : i < h.elements.length := by
          rcases Nat.lt_or_ge i h.elements.length with hlt | hge
          · exact hlt
          · rw [List.getElem?_eq_none hge] at he
            cases he
        have hee : e0 = e := by
          rw [he0] at he
          exact Option.some.inj he
        subst hee
        refine ⟨Element.mk e0.id (setProp e0.props "value"
          (.string (Sprint (getProp e0.props "value").String))), by simp [hlt], rfl,
          fun q hq => ?_, fun hne => absurd rfl hne⟩
        exact getProp_setProp_other _ _ _ _ hq
      · refine ⟨e, ?_, rfl, fun _ _ => rfl, fun _ => rfl⟩
        simp [List.getElem?_set_ne hji, he]

/-- C4 at the sample document: the header element is untouched and the text area keeps its id
and its rows property. -/
theorem emojifyMyText_frame_witness :
    (emojifyMyText smiley .undefined [] happyHost).host.globals = happyHost.globals ∧
      (∃ e2, (emojifyMyText smiley .undefined [] happyHost).host.elements[1]? = some e2 ∧
        e2.id = "my_text_area" ∧
        (∀ q, q ≠ "value" → getProp e2.props q
          = getProp [("rows", .number "4"), ("value", .string "I am happy :) today")] q) ∧
        (findElement happyHost.elements "my_text_area" ≠ some 1 → e2 =
          ⟨"my_text_area", [("rows", .number "4"), ("value", .string "I am happy :) today")]⟩)) :=
  ⟨(emojifyMyText_frame smiley .undefined [] happyHost).1,
    (emojifyMyText_frame smiley .undefined [] happyHost).2.2.2 1
      ⟨"my_text_area", [("rows", .number "4"), ("value", .string "I am happy :) today")]⟩ rfl⟩

/-- C5: when the value of the element with id my_text_area is the text v and the routine maps
v to v, the call returns nil and leaves that value equal to v; the whole host state is as it
was before the call. -/
theorem emojifyMyText_fixed_text_unchanged (Sprint : String → String) (this : Value)
    (args : List Value) (h : Host) (v : String)
    (hv : elementValue h "my_text_area" = some (.string v)) (hfix : Sprint v = v) :
    elementValue (emojifyMyText Sprint this args h).host "my_text_area" = some (.string v) ∧
      (emojifyMyText Sprint this args h).host = h ∧
      (emojifyMyText Sprint this args h).outcome = .returned none := by
  obtain ⟨i, e, hf, he, hval⟩ := elementValue_some hv
  have hne : getProp e.props "value" ≠ .undefined := by
    rw [hval]
    exact fun hc => Value.noConfusion hc
  have hps : setProp e.props "value" (.string v) = e.props := by
    have hself := setProp_getProp_self e.props "value" hne
    rw [hval] at hself
    exact hself
  have hhost : (emojifyMyText Sprint this args h).host = h := by
    rw [emojifyMyText_found Sprint this args hf he, if_neg hne]
    simp only [hval, Value.String, hfix, hps]
    have hset : h.elements.set i (Element.mk e.id e.props) = h.elements :=
      set_same_element he
    rw [hset]
  refine ⟨?_, hhost, ?_⟩
  · rw [hhost]
    exact hv
  · rw [emojifyMyText_found Sprint this args hf he, if_neg hne]

/-- C5 at a text without any token and at the empty text. -/
theorem emojifyMyText_fixed_text_unchanged_witness :
    (elementValue helloHost "my_text_area" = some (.string "hello world") ∧
      smiley "hello world" = "hello world") ∧
      elementValue (emojifyMyText smiley .undefined [] helloHost).host "my_text_area"
        = some (.string "hello world") ∧
    (elementValue emptyTextHost "my_text_area" = some (.string "") ∧ smiley "" = "") ∧
      elementValue (emojifyMyText smiley .undefined [] emptyTextHost).host "my_text_area"
        = some (.string "") :=
  ⟨⟨by decide, by decide⟩,
    (emojifyMyText_fixed_text_unchanged smiley .undefined [] helloHost "hello world"
      (by decide) (by decide)).1,
    ⟨by decide, by decide⟩,
    (emojifyMyText_fixed_text_unchanged smiley .undefined [] emptyTextHost ""
      (by decide) (by decide)).1⟩

/-- C6: with an idempotent routine, a second call right after a first one (whatever receiver
and arguments either call gets) leaves the host state exactly as the first call left it. -/
theorem emojifyMyText_twice_eq_once (Sprint : String → String) (this this2 : Value)
    (args args2 : List Value) (h : Host) (hidem : ∀ s, Sprint (Sprint s) = Sprint s) :
    (emojifyMyText Sprint this2 args2 (emojifyMyText Sprint this args h).host).host
      = (emojifyMyText Sprint this args h).host := by
  cases hf : findElement h.elements "my_text_area" with
  | none =>
    rw [emojifyMyText_missing_host Sprint this args hf]
    exact emojifyMyText_missing_host Sprint this2 args2 hf
  | some i =>
    obtain ⟨e0, he0, _⟩ := findElement_some hf
    by_cases hu : getProp e0.props "value" = .undefined
    · have h1 : (emojifyMyText Sprint this args h).host = h := by
        rw [emojifyMyText_found Sprint this args hf he0, if_pos hu]
      rw [h1, emojifyMyText_found Sprint this2 args2 hf he0, if_pos hu]
    · have hlt : i < h.elements.length := by
        rcases Nat.lt_or_ge i h.elements.length with hlt | hge
        · exact hlt
        · rw [List.getElem?_eq_none hge] at he0
          cases he0
      rw [emojifyMyText_found Sprint this args hf he0, if_neg hu]
      have hf1 : findElement (h.elements.set i (Element.mk e0.id (setProp e0.props "value"
          (.string (Sprint (getProp e0.props "value").String))))) "my_text_area" = some i := by
        rw [findElement_set (Element.mk e0.id (setProp e0.props "value"
          (.string (Sprint (getProp e0.props "value").String)))) "my_text_area" he0 rfl]
        exact hf
      have he1 : (h.elements.set i (Element.mk e0.id (setProp e0.props "value"
          (.string (Sprint (getProp e0.props "value").String)))))[i]?
          = some (Element.mk e0.id (setProp e0.props "value"
              (.string (Sprint (getProp e0.props "value").String)))) := by
        simp [hlt]
      rw [emojifyMyText_found Sprint this2 args2 hf1 he1]
      simp only [getProp_setProp_same, Value.String, reduceCtorEq, if_false, hidem,
        setProp_setProp, List.set_set]

/-- C6 with a routine that turns a lone token into the smiling face, at the sample document. -/
theorem emojifyMyText_twice_eq_once_witness :
    (∀ s, wholeSmiley (wholeSmiley s) = wholeSmiley s) ∧
      (emojifyMyText wholeSmiley .null [.null]
          (emojifyMyText wholeSmiley .undefined [] happyHost).host).host
        = (emojifyMyText wholeSmiley .undefined [] happyHost).host := by
  have hidem : ∀ s, wholeSmiley (wholeSmiley s) = wholeSmiley s := by
    intro s
    by_cases hs : s = ":)"
    · subst hs
      decide
    · simp [wholeSmiley, hs]
  exact ⟨hidem, emojifyMyText_twice_eq_once wholeSmiley .undefined .null [] [.null] happyHost hidem⟩

/-- C7: in a document that follows the DOM standard and has elements but none with id
my_text_area, the call ends in a panic (Value.Get on null) for every routine, receiver and
argument list: an error does reach the caller. -/
theorem emojifyMyText_panics_in_dom_without_element (Sprint : String → String)
    (this : Value) (args : List Value) :
    emojifyMyText Sprint this args otherIdsDomHost
      = ⟨.panicked ⟨"Value.Get", .null⟩, otherIdsDomHost, []⟩ := by
  rfl

/-- C8: the result of a call does not depend on the receiver or on the arguments; on each of
the three exit paths (the lookup answers undefined; the element is found and its value is
undefined; the element is found and its value is anything else) the call returns nil; and
whenever the call returns at all, it returns nil. -/
theorem emojifyMyText_returns_nil (Sprint : String → String) (this : Value)
    (args : List Value) (h : Host) :
    (∀ (this2 : Value) (args2 : List Value),
        emojifyMyText Sprint this2 args2 h = emojifyMyText Sprint this args h) ∧
      (getElementById h "my_text_area" = .undefined →
        (emojifyMyText Sprint this args h).outcome = .returned none) ∧
      (elementValue h "my_text_area" = some .undefined →
        (emojifyMyText Sprint this args h).outcome = .returned none) ∧
      (∀ v, elementValue h "my_text_area" = some v → v ≠ .undefined →
        (emojifyMyText Sprint this args h).outcome = .returned none) ∧
      (∀ res, (emojifyMyText Sprint this args h).outcome = .returned res → res = none) := by
  have hfound : ∀ v, elementValue h "my_text_area" = some v →
      (emojifyMyText Sprint this args h).outcome = .returned none := by
    intro v hv
    obtain ⟨i, e, hf, he, _⟩ := elementValue_some hv
    rw [emojifyMyText_found Sprint this args hf he]
    split <;> rfl
  refine ⟨fun _ _ => rfl, ?_, hfound _, fun v hv _ => hfound v hv, ?_⟩
  · intro hu
    simp [emojifyMyText, hu, Value.IsUndefined]
  · intro res hres
    cases hf : findElement h.elements "my_text_area" with
    | none =>
      rw [emojifyMyText_missing Sprint this args hf] at hres
      cases hn : h.noElement <;> rw [hn] at hres <;> simp at hres
      exact hres.symm
    | some i =>
      obtain ⟨e, he, _⟩ := findElement_some hf
      rw [hfound _ (elementValue_eq hf he)] at hres
      cases hres
      rfl

/-- C8 on each exit path: a host whose failed lookup answers undefined, an element without a
value, and the sample document, each called with a receiver and arguments. -/
theorem emojifyMyText_returns_nil_witness :
    (getElementById emptyUndefinedHost "my_text_area" = .undefined ∧
      (emojifyMyText smiley (.object 0) [.string "x"] emptyUndefinedHost).outcome
        = .returned none) ∧
    (elementValue divHost "my_text_area" = some .undefined ∧
      (emojifyMyText smiley (.object 0) [.string "x"] divHost).outcome = .returned none) ∧
    (elementValue happyHost "my_text_area" = some (.string "I am happy :) today") ∧
      (emojifyMyText smiley (.object 0) [.string "x"] happyHost).outcome = .returned none) :=
  ⟨⟨by decide, (emojifyMyText_returns_nil smiley (.object 0) [.string "x"]
      emptyUndefinedHost).2.1 (by decide)⟩,
    ⟨by decide, (emojifyMyText_returns_nil smiley (.object 0) [.string "x"]
      divHost).2.2.1 (by decide)⟩,
    ⟨by decide, (emojifyMyText_returns_nil smiley (.object 0) [.string "x"]
      happyHost).2.2.2.1 (.string "I am happy :) today") (by decide) (by decide)⟩⟩

/-- C9: there are a routine that is not idempotent, a text v and a document whose text area
holds v such that one call leaves the routine's result on v in the text area, a second call
leaves the routine applied twice, and the two differ. -/
theorem emojifyMyText_not_idempotent :
    ∃ (Sprint : String → String) (v : String) (h : Host),
      elementValue h "my_text_area" = some (.string v) ∧
      Sprint (Sprint v) ≠ Sprint v ∧
      elementValue (emojifyMyText Sprint .undefined [] h).host "my_text_area"
        = some (.string (Sprint v)) ∧
      elementValue (emojifyMyText Sprint .undefined []
          (emojifyMyText Sprint .undefined [] h).host).host "my_text_area"
        = some (.string (Sprint (Sprint v))) ∧
      elementValue (emojifyMyText Sprint .undefined []
          (emojifyMyText Sprint .undefined [] h).host).host "my_text_area"
        ≠ elementValue (emojifyMyText Sprint .undefined [] h).host "my_text_area" :=
  ⟨addSmiley, "hello world", helloHost, by decide, by decide, by decide, by decide, by decide⟩

/-- C10, as stated, fails: in a document whose text area holds null as its value, which is not
a text, the routine is called all the same, on the rendering of null, and the routine's result
on that rendering is written into the text area. -/
theorem emojifyMyText_substitutes_null_value :
    elementValue nullValueHost "my_text_area" = some .null ∧
      (¬ ∃ s, elementValue nullValueHost "my_text_area" = some (.string s)) ∧
      (emojifyMyText smiley .undefined [] nullValueHost).sprintArgs = ["<null>"] ∧
      elementValue (emojifyMyText smiley .undefined [] nullValueHost).host "my_text_area"
        = some (.string "<null>") := by
  refine ⟨by decide, ?_, by decide, by decide⟩
  rintro ⟨s, hs⟩
  have hnull : elementValue nullValueHost "my_text_area" = some .null := by decide
  rw [hnull] at hs
  cases hs

/-- C10, amended: the routine is called on a string x exactly when the lookup finds an element
whose value v is not undefined and x is the rendering Value.String gives for v (the text
itself for a string, a bracketed name of the kind for anything else); it is called at most
once. -/
theorem emojifyMyText_substitutes_rendering (Sprint : String → String) (this : Value)
    (args : List Value) (h : Host) (x : String) :
    (x ∈ (emojifyMyText Sprint this args h).sprintArgs ↔
        ∃ v, elementValue h "my_text_area" = some v ∧ v ≠ .undefined ∧ x = v.String) ∧
      (emojifyMyText Sprint this args h).sprintArgs.length ≤ 1 := by
  cases hf : findElement h.elements "my_text_area" with
  | none =>
    have hargs : (emojifyMyText Sprint this args h).sprintArgs = [] := by
      rw [emojifyMyText_missing Sprint this args hf]
      cases h.noElement <;> rfl
    rw [hargs]
    simp [elementValue, hf]
  | some i =>
    obtain ⟨e, he, _⟩ := findElement_some hf
    rw [emojifyMyText_found Sprint this args hf he, elementValue_eq hf he]
    by_cases hu : getProp e.props "value" = .undefined
    · simp [hu]
    · simp [hu]

/-- C10, amended, at a document whose text area holds the number 42. -/
theorem emojifyMyText_substitutes_rendering_witness :
    "<number: 42>" ∈ (emojifyMyText smiley .undefined [] numberValueHost).sprintArgs ∧
      ∃ v, elementValue numberValueHost "my_text_area" = some v ∧ v ≠ .undefined ∧
        "<number: 42>" = v.String :=
  ⟨by decide,
    (emojifyMyText_substitutes_rendering smiley .undefined [] numberValueHost
      "<number: 42>").1.1 (by decide)⟩

end ExportToJS
